import Mathlib

/-!
Verification of the PR-content generation core of the `pr-agent` repository.

Python strings are modelled as lists of characters (`PyStr`); each `def`
below is a shallow embedding of the correspondingly named Python function,
translated from the source files under `src/pr_agent/`.
-/

set_option linter.unusedVariables false

/-- Python strings are modelled as lists of characters. -/
abbrev PyStr := List Char

/-- Coerce a Lean string literal to the `PyStr` model. -/
def S (s : String) : PyStr := s.data

/-- The characters removed by Python `str.strip()` / matched by `\s`
(ASCII range; the source only ever handles ASCII metadata). -/
def pyIsSpace (c : Char) : Bool :=
  c = ' ' || c = '\t' || c = '\n' || c = '\r' || c = '\x0b' || c = '\x0c'

/-- Python `str.lstrip()`. -/
def pyLStrip (s : PyStr) : PyStr := s.dropWhile pyIsSpace

/-- Python `str.rstrip()`. -/
def pyRStrip (s : PyStr) : PyStr := (s.reverse.dropWhile pyIsSpace).reverse

/-- Python `str.strip()`. -/
def pyStrip (s : PyStr) : PyStr := pyRStrip (pyLStrip s)

/-- Python `str.lower()` (ASCII). -/
def pyLower (s : PyStr) : PyStr := s.map Char.toLower

/-- Python `str.upper()` (ASCII). -/
def pyUpper (s : PyStr) : PyStr := s.map Char.toUpper

/-- Python `"\n".join(parts)`. -/
def joinNL : List PyStr → PyStr
  | [] => []
  | [l] => l
  | l :: l' :: ls => l ++ '\n' :: joinNL (l' :: ls)

/-- Python `s.split(sep)` for a one-character separator: keeps empty pieces,
`"".split(c) = [""]`. -/
def pySplitChar (sep : Char) : PyStr → List PyStr
  | [] => [[]]
  | c :: rest =>
    if c = sep then [] :: pySplitChar sep rest
    else
      match pySplitChar sep rest with
      | [] => [[c]]
      | l :: ls => (c :: l) :: ls

/-- Python split of `s` at the newline character. -/
def pySplitLines (s : PyStr) : List PyStr := pySplitChar '\n' s

/-- Python `sub in s` (substring containment). -/
def pyContainsSub (sub : PyStr) : PyStr → Bool
  | [] => List.isPrefixOf sub []
  | s@(_ :: t) => List.isPrefixOf sub s || pyContainsSub sub t

/-- Decimal rendering of a natural number, for Python f-string interpolation
of `len(...)` values. -/
def natToStr (n : Nat) : PyStr := Nat.toDigits 10 n

/-! ## Diff summarizer (`PRPrompts.extract_diff_summary`, src/pr_agent/prompts.py) -/

/-- The truncation marker appended by `extract_diff_summary`. -/
def diffMarker : PyStr := S "... (diff truncated)"

/-- Embeds the header test of the scanner: startswith of "diff --git",
"+++", "---" or "@@". -/
def isHeaderLine (l : PyStr) : Bool :=
  List.isPrefixOf (S "diff --git") l || List.isPrefixOf (S "+++") l ||
  List.isPrefixOf (S "---") l || List.isPrefixOf (S "@@") l

/-- Embeds the content test of the scanner (the elif branch): startswith of
"+" or "-". -/
def isContentLine (l : PyStr) : Bool :=
  List.isPrefixOf (S "+") l || List.isPrefixOf (S "-") l

/-- The scanning loop of `extract_diff_summary`, returning `summary_lines`.
`cc` is `char_count`.  The Python guard `char_count < max_length * 0.7`
computes the threshold in binary floating point; it is modelled by the exact
rational comparison `10 * cc < 7 * b` (for the integer operands the source
ever compares, the two can differ only when `0.7 * b` is within one unit in
the last place of an integer, which none of the facts proved here depend
on). -/
def summarizeGo (b : Int) : List PyStr → Int → List PyStr
  | [], _ => []
  | line :: rest, cc =>
    if isHeaderLine line then
      (if b ≤ cc + line.length then [line, diffMarker]
       else line :: summarizeGo b rest (cc + line.length))
    else if isContentLine line then
      (if 10 * cc < 7 * b then
        (if b ≤ cc + line.length then [line, diffMarker]
         else line :: summarizeGo b rest (cc + line.length))
       else if b ≤ cc then [diffMarker] else summarizeGo b rest cc)
    else if b ≤ cc then [diffMarker] else summarizeGo b rest cc

/-- Embeds `PRPrompts.extract_diff_summary(diff, max_length)`. -/
def extract_diff_summary (diff : PyStr) (max_length : Int) : PyStr :=
  joinNL (summarizeGo max_length (pySplitLines diff) 0)

/-- Sum of `length + 1` over a list of lines: an upper bound for the length
of their newline-join. -/
def joinLenBound (ls : List PyStr) : Int :=
  ls.foldr (fun l acc => (l.length : Int) + 1 + acc) 0

/-- Largest line length in a list of lines. -/
def maxLineLen (ls : List PyStr) : Int :=
  ls.foldr (fun l m => max (l.length : Int) m) 0

/-! ## Ticket extraction (`GitOperations.extract_ticket_number`,
src/pr_agent/git_operations.py)

`re.search(r"STAR-(\d+)", branch_name, re.IGNORECASE)` with the default
pattern.  `re.search` returns the leftmost match; `\d+` is greedy, so the
match is the maximal digit run; `re.IGNORECASE` on the ASCII letters
`S`, `T`, `A`, `R` means each matches either of its two case variants. -/

/-- One character matching either case variant (the effect of
`re.IGNORECASE` on an ASCII pattern letter). -/
def ciMatch (lower upper c : Char) : Bool := c = lower || c = upper

/-- Attempt to match `STAR-(\d+)` (case-insensitive) at the start of the
string; on success return the full matched substring `group(0)`. -/
def matchStarAt : PyStr → Option PyStr
  | c1 :: c2 :: c3 :: c4 :: c5 :: rest =>
    if ciMatch 's' 'S' c1 && ciMatch 't' 'T' c2 &&
       ciMatch 'a' 'A' c3 && ciMatch 'r' 'R' c4 && c5 = '-' then
      match rest with
      | d :: _ =>
        if d.isDigit then
          some ([c1, c2, c3, c4, c5] ++ rest.takeWhile Char.isDigit)
        else none
      | [] => none
    else none
  | _ => none

/-- Embeds `re.search` for the fixed pattern: try each start position left to
right. -/
def reSearchStar : PyStr → Option PyStr
  | [] => none
  | s@(_ :: rest) =>
    match matchStarAt s with
    | some m => some m
    | none => reSearchStar rest

/-- Embeds `GitOperations.extract_ticket_number(branch_name)` with the default
pattern `STAR-(\d+)`: on a match return `match.group(0).upper()`, else
`None`. -/
def extract_ticket_number (branch_name : PyStr) : Option PyStr :=
  match reSearchStar branch_name with
  | some m => some (pyUpper m)
  | none => none

/-- Claim-side predicate: `v` is an occurrence of `STAR-<digits>` in any
case — the four letters in either case, a dash, then one or more decimal
digits. -/
def ciStarNumB (v : PyStr) : Bool :=
  match v with
  | c1 :: c2 :: c3 :: c4 :: c5 :: ds =>
    ciMatch 's' 'S' c1 && ciMatch 't' 'T' c2 &&
    ciMatch 'a' 'A' c3 && ciMatch 'r' 'R' c4 && c5 = '-' &&
    !ds.isEmpty && ds.all Char.isDigit
  | _ => false

/-- Claim-side decidable test: some substring of `b` is an occurrence of
`STAR-<digits>` in any case. -/
def hasStarOcc (b : PyStr) : Bool :=
  (List.range (b.length + 1)).any (fun i =>
    (List.range (b.length + 1)).any (fun k => ciStarNumB ((b.drop i).take k)))

/-! ## Template parsing (`parse_template_sections`,
src/pr_agent/template_parser.py) -/

/-- Translation of `re.match(r"^#{2,3}\s+(.+)$", line)`: the line must start
with exactly 2 or 3 `#` characters followed by at least one whitespace
character and then at least one further character; `group(1)` is the text
after the (greedy) whitespace run, except that when everything after the
whitespace run is empty the engine backtracks and `group(1)` is the last
whitespace character (possible only on lines with trailing whitespace,
which the caller has already stripped away). -/
def reMatchHeading (line : PyStr) : Option PyStr :=
  let n := (line.takeWhile (fun c => c = '#')).length
  let rest := line.dropWhile (fun c => c = '#')
  if n = 2 ∨ n = 3 then
    match rest with
    | [] => none
    | c :: cs =>
      if pyIsSpace c then
        (let g := rest.dropWhile pyIsSpace
         if g ≠ [] then some g
         else if cs ≠ [] then some (rest.drop (rest.length - 1)) else none)
      else none
  else none

/-- The per-line step of the parsing loop: the heading appended for this
line, if any (`match` then `group(1).strip()` then the non-empty check). -/
def lineHeading (line : PyStr) : Option PyStr :=
  match reMatchHeading (pyStrip line) with
  | some group1 =>
    let header_text := pyStrip group1
    if header_text ≠ [] then some header_text else none
  | none => none

/-- Embeds `parse_template_sections(template_content)`. -/
def parse_template_sections (template_content : PyStr) : List PyStr :=
  if template_content = [] then []
  else
    (pySplitLines template_content).foldl
      (fun sections line =>
        match lineHeading line with
        | some h => sections ++ [h]
        | none => sections) []

/-- Spec-side heading acceptor, following the claim text: a line is a
section heading iff, after trimming, it has 2 or 3 leading `#` characters,
one or more whitespace characters, then non-empty text; the heading is that
text, trimmed. -/
def claimHeading (line : PyStr) : Option PyStr :=
  let t := pyStrip line
  let n := (t.takeWhile (fun c => c = '#')).length
  let rest := t.dropWhile (fun c => c = '#')
  let ws := rest.takeWhile pyIsSpace
  let text := rest.dropWhile pyIsSpace
  if (n = 2 ∨ n = 3) ∧ ws ≠ [] ∧ text ≠ [] then some (pyStrip text) else none

/-- Spec-side parse: accepted headings of all lines, in order, without
de-duplication. -/
def claimParse (content : PyStr) : List PyStr :=
  (pySplitLines content).filterMap claimHeading

/-! ## Title generation (`PRGenerator.generate_title`,
src/pr_agent/pr_generator.py)

The backend call is external; `title0` stands for the string returned by
`self.llm_client.generate(...)`.  The post-processing is embedded
faithfully. -/

/-- Characters after the first occurrence of `c`
(`s.split(c, 1)[1]`, defined when `c` occurs in `s`). -/
def pyAfterFirst (c : Char) (s : PyStr) : PyStr :=
  (s.dropWhile (fun d => d ≠ c)).drop 1

/-- Embeds the `PRGenerator.generate_title` post-processing of the backend reply. -/
def generate_title (ticket_number : PyStr) (title0 : PyStr) : PyStr :=
  let title :=
    if List.isPrefixOf ticket_number title0 then title0
    else
      let description :=
        if title0.contains ':' then pyStrip (pyAfterFirst ':' title0)
        else pyStrip title0
      ticket_number ++ S ": " ++ description
  pyStrip title

/-! ## Body assembly (`PRGenerator.format_pr_body`,
src/pr_agent/pr_generator.py)

The `sections` dict is keyed `"section_0" .. "section_(n-1)"`; it is
modelled as a list, `sections.get(f"section_{i}", "")` becoming
`sections.getD i []`. -/

/-- The sentinel text forced for a trivial final section. -/
def sentinelNote : PyStr := S "No additional notes."

/-- The body emitted for section `i` of `nSections`: the generated content,
except that for the last section an empty body or one equal to the sentinel
case-insensitively is forced to the sentinel text. -/
def emittedContent (sections : List PyStr) (nSections i : Nat) : PyStr :=
  let content := sections.getD i []
  if i = nSections - 1 then
    if content ≠ [] ∧ pyLower content ≠ S "no additional notes." then content
    else sentinelNote
  else content

/-- Embeds `PRGenerator.format_pr_body(sections, template_sections)`: per section a
heading line, a blank line, the (possibly sentinel-forced) body and a blank
line; joined by newlines and stripped. -/
def format_pr_body (sections template_sections : List PyStr) : PyStr :=
  let body_parts :=
    ((List.range template_sections.length).map (fun i =>
      [S "## " ++ template_sections.getD i [], [],
       emittedContent sections template_sections.length i, []])).flatten
  pyStrip (joinNL body_parts)

/-! ## Prompt construction (`PRPrompts.generate_why_prompt`,
src/pr_agent/prompts.py)

The function takes exactly two parameters, `user_intent` and
`changed_files`; it has no feedback parameter. -/

/-- The `files_str` built by `generate_why_prompt`: first 10 files as
`- <file>` lines, plus an `... and N more files` suffix beyond the cap. -/
def whyFilesStr (changed_files : List PyStr) : PyStr :=
  let files_str := joinNL ((changed_files.take 10).map (fun f => S "- " ++ f))
  if 10 < changed_files.length then
    files_str ++ S "\n... and " ++ natToStr (changed_files.length - 10)
      ++ S " more files"
  else files_str

/-- Embeds `PRPrompts.generate_why_prompt(user_intent, changed_files)`. -/
def generate_why_prompt (user_intent : PyStr) (changed_files : List PyStr) :
    PyStr :=
  S "Explain why this change is being made in 1-2 concise sentences (max 50 words total).\n\nUser\x27s purpose: "
    ++ user_intent
    ++ S "\nFiles modified: " ++ whyFilesStr changed_files
    ++ S "\n\nFocus on: What problem this solves and why it\x27s needed.\nBe direct and concise. No headers, bullet points, or extra formatting."

/-! ## Generation client (`CopilotClient`, src/pr_agent/llm_client.py) -/

/-- The Python exceptions that can escape `CopilotClient._post` /
`CopilotClient.generate`, identified the way a Python caller can
distinguish them: by exception class (plus the message carried by
`LLMError`).  `connectionError` stands for
`requests.exceptions.ConnectionError`, which `_post` does not catch;
`typeError` stands for `TypeError`. -/
inductive PyExc where
  | llmError (msg : PyStr)
  | connectionError
  | typeError (msg : PyStr)
deriving DecidableEq

/-- The exception class a Python `except` clause dispatches on. -/
def excClass : PyExc → PyStr
  | .llmError _ => S "LLMError"
  | .connectionError => S "ConnectionError"
  | .typeError _ => S "TypeError"

/-- A content block of a structured Copilot reply (`block.get("text")`). -/
structure CopilotBlock where
  text : Option PyStr
deriving DecidableEq

/-- The `content` field of a reply message: a plain string or a list of
typed content blocks. -/
inductive CopilotContent where
  | str (s : PyStr)
  | blocks (bs : List CopilotBlock)
deriving DecidableEq

/-- A reply message (`choices[0].get("message", {})` with an optional
`content` field). -/
structure CopilotMessage where
  content : Option CopilotContent
deriving DecidableEq

/-- One entry of `choices` (optional `message` field). -/
structure CopilotChoice where
  message : Option CopilotMessage
deriving DecidableEq

/-- The decoded JSON body, as far as `generate` reads it
(`data.get("choices")`, absent or falsy collapsing to `[]`). -/
structure CopilotData where
  choices : Option (List CopilotChoice)
deriving DecidableEq

/-- The outcome of `requests.post` in `_post`: a connection failure, or an
HTTP response with a status code and a body that either decodes to JSON
(`some data`) or does not (`none`). -/
inductive HttpOutcome where
  | connFailure
  | response (status : Nat) (body : Option CopilotData)

/-- Message of the `LLMError` raised for a 401 status (verbatim from the
source). -/
def authFailMsg : PyStr :=
  S "Copilot authentication failed. Ensure your GitHub token has Copilot access."

/-- Message of the `LLMError` raised for other non-success statuses;
`excText` is the rendering of the `HTTPError`. -/
def requestFailMsg (excText : PyStr) : PyStr :=
  S "Copilot request failed: " ++ excText

/-- Message of the `LLMError` raised for an undecodable body; `excText` is
the rendering of the `JSONDecodeError`. -/
def parseFailMsg (excText : PyStr) : PyStr :=
  S "Failed to parse Copilot response: " ++ excText

/-- Embeds `CopilotClient._post`: `response.raise_for_status()` raises `HTTPError`
for statuses 400–599; a 401 is re-raised as the authentication `LLMError`,
other HTTP errors as the request-failed `LLMError`; an undecodable body as
the parse-failure `LLMError`; a connection failure is not caught at all.
`renderHttpError`/`renderJsonError` abstract the library rendering of the
underlying exception text interpolated into the messages. -/
def copilotPost (renderHttpError : Nat → PyStr) (renderJsonError : PyStr)
    (outcome : HttpOutcome) : Except PyExc CopilotData :=
  match outcome with
  | .connFailure => .error .connectionError
  | .response status body =>
    if 400 ≤ status ∧ status < 600 then
      if status = 401 then .error (.llmError authFailMsg)
      else .error (.llmError (requestFailMsg (renderHttpError status)))
    else
      match body with
      | none => .error (.llmError (parseFailMsg renderJsonError))
      | some data => .ok data

/-- Normalization of a structured content-block list:
`"\n".join(block.get("text", "") for block in content if block.get("text"))`
— text-bearing blocks (truthy `text`, i.e. present and non-empty) joined by
newlines. -/
def normalizeBlocks (bs : List CopilotBlock) : PyStr :=
  joinNL (bs.filterMap (fun blk =>
    match blk.text with
    | some t => if t ≠ [] then some t else none
    | none => none))

/-- Embeds `CopilotClient.generate` from the `_post` result onwards: empty `choices`
raises; a string `content` (or a block list, which always normalizes to a
string) is returned stripped; a missing `content` raises. -/
def copilotGenerate (renderHttpError : Nat → PyStr) (renderJsonError : PyStr)
    (outcome : HttpOutcome) : Except PyExc PyStr :=
  match copilotPost renderHttpError renderJsonError outcome with
  | .error e => .error e
  | .ok data =>
    match data.choices.getD [] with
    | [] => .error (.llmError (S "Copilot returned no choices"))
    | choice :: _ =>
      let message := choice.message.getD ⟨none⟩
      match message.content with
      | some (.str s) => .ok (pyStrip s)
      | some (.blocks bs) => .ok (pyStrip (normalizeBlocks bs))
      | none => .error (.llmError (S "Copilot response missing text content"))

/-- The exception class of a failed computation, `none` on success. -/
def errClass {α : Type} : Except PyExc α → Option PyStr
  | .error e => some (excClass e)
  | .ok _ => none

/-- The `content` field of the first choice of a decoded body, `none` when
`choices` is empty or the field is absent. -/
def contentOfFirst (data : CopilotData) : Option CopilotContent :=
  match data.choices.getD [] with
  | [] => none
  | choice :: _ => (choice.message.getD ⟨none⟩).content

/-- Claim-side predicate: the decoded body carries no usable text — empty
`choices`, absent `content`, or content that normalizes (and strips) to no
text. -/
def hasNoUsableText (data : CopilotData) : Bool :=
  match data.choices.getD [] with
  | [] => true
  | choice :: _ =>
    match (choice.message.getD ⟨none⟩).content with
    | none => true
    | some (.str s) => pyStrip s = []
    | some (.blocks bs) => pyStrip (normalizeBlocks bs) = []

/-! ## Section generation and description assembly
(`PRGenerator.generate_why_section` / `PRGenerator.generate_description`,
src/pr_agent/pr_generator.py) -/

/-- Message of the `TypeError` raised when the Python call
`self.prompts.generate_why_prompt(user_intent, changed_files,
feedback_history)` in `generate_why_section` supplies three positional
arguments to the two-parameter static method `PRPrompts.generate_why_prompt`. -/
def whyPromptArityMsg : PyStr :=
  S "PRPrompts.generate_why_prompt() takes 2 positional arguments but 3 were given"

/-- Embeds `PRGenerator.generate_why_section`.  Its first statement after the
`feedback_history = feedback_history or []` default is
`self.prompts.generate_why_prompt(user_intent, changed_files,
feedback_history)` — a call with three positional arguments to a function
defined with exactly two parameters (src/pr_agent/prompts.py:138), so the
Python call raises `TypeError` before any prompt is built or any backend
call is made; the embedding is that raised exception.
(`generate_impact_section` and `generate_notes_section` fail identically.) -/
def generate_why_section (user_intent : PyStr) (changed_files : List PyStr)
    (diff : Option PyStr) (feedback_history : Option (List PyStr)) :
    Except PyExc PyStr :=
  .error (.typeError whyPromptArityMsg)

/-- The `try/except` around diff retrieval in `generate_description`
(src/pr_agent/pr_generator.py:226-231): a successful `get_diff` result is
used as-is, any raised exception is swallowed and replaced by the empty
string. -/
def resolveDiff (diffResult : Except PyExc PyStr) : PyStr :=
  match diffResult with
  | .ok diff => diff
  | .error _ => []

/-- The oversize cap in `generate_description`
(src/pr_agent/pr_generator.py:233-235): a non-empty diff longer than
`max_diff_tokens` is cut to that many characters and suffixed with a
truncation marker. -/
def capDiff (max_diff_tokens : Nat) (diff : PyStr) : PyStr :=
  if diff ≠ [] ∧ max_diff_tokens < diff.length then
    diff.take max_diff_tokens ++ S "\n\n... (diff truncated)"
  else diff

/-- Embeds `PRGenerator.generate_description` from the point where repository facts
are available.  The three per-section generators wrap external backend
calls (and, as embedded above, currently raise); they are abstracted here
as function parameters receiving exactly the arguments the source passes
them.  `template_sections` stands for the resolved template (or default)
sections and `diffResult` for the outcome of
`git_ops.get_diff(base_branch, allow_empty=True)`. -/
def generate_description
    (genWhy : PyStr → List PyStr → PyStr → List PyStr → PyStr)
    (genImpact : List PyStr → List PyStr → PyStr → List PyStr → PyStr)
    (genNotes : List PyStr → PyStr → List PyStr → PyStr)
    (user_intent : PyStr) (changed_files commit_messages : List PyStr)
    (template_sections : List PyStr) (max_diff_tokens : Nat)
    (diffResult : Except PyExc PyStr) (feedback_history : List PyStr) :
    PyStr :=
  let diff := capDiff max_diff_tokens (resolveDiff diffResult)
  let sections :=
    (List.range template_sections.length).map (fun i =>
      let section_lower := pyLower (template_sections.getD i [])
      if pyContainsSub (S "why") section_lower = true ∨ i = 0 then
        genWhy user_intent changed_files diff feedback_history
      else if pyContainsSub (S "impact") section_lower = true ∨ i = 1 then
        genImpact changed_files commit_messages diff feedback_history
      else
        genNotes changed_files diff feedback_history)
  format_pr_body sections template_sections

/-! ## Helper lemmas -/

theorem diffMarker_len : diffMarker.length = 20 := by decide

theorem keptLine_len_pos (l : PyStr)
    (h : isHeaderLine l = true ∨ isContentLine l = true) :
    1 ≤ (l.length : Int) := by
  cases l with
  | nil =>
    rcases h with h | h
    · exact absurd h (by decide)
    · exact absurd h (by decide)
  | cons c t => simp

theorem joinNL_length_le : ∀ ls : List PyStr,
    ((joinNL ls).length : Int) ≤ joinLenBound ls := by
  intro ls
  induction ls with
  | nil => simp [joinNL, joinLenBound]
  | cons l ls ih =>
    cases ls with
    | nil => simp [joinNL, joinLenBound]
    | cons l' ls' =>
      simp only [joinNL, joinLenBound, List.foldr_cons, List.length_append,
        List.length_cons] at ih ⊢
      push_cast
      omega

theorem mem_maxLineLen : ∀ (ls : List PyStr) (l : PyStr), l ∈ ls →
    (l.length : Int) ≤ maxLineLen ls := by
  intro ls
  induction ls with
  | nil => intro l hl; simp at hl
  | cons x xs ih =>
    intro l hl
    simp only [maxLineLen, List.foldr_cons]
    rcases List.mem_cons.mp hl with rfl | hl
    · exact le_max_left _ _
    · exact le_trans (ih l hl) (le_max_right _ _)

theorem maxLineLen_nonneg : ∀ ls : List PyStr, 0 ≤ maxLineLen ls := by
  intro ls
  induction ls with
  | nil => simp [maxLineLen]
  | cons x xs ih =>
    simp only [maxLineLen, List.foldr_cons] at ih ⊢
    exact le_trans ih (le_max_right _ _)

theorem summarizeGo_bound (b L : Int) :
    ∀ (lines : List PyStr) (cc : Int),
      (∀ l ∈ lines, (l.length : Int) ≤ L) → 0 ≤ L → 0 ≤ cc →
      cc ≤ max 0 (b - 1) →
      joinLenBound (summarizeGo b lines cc) ≤
        2 * (max 0 (b - 1) - cc) + 2 * L + 23 := by
  intro lines
  induction lines with
  | nil =>
    intro cc hmem hL hcc0 hccM
    simp only [summarizeGo, joinLenBound, List.foldr_nil]
    omega
  | cons line rest ih =>
    intro cc hmem hL hcc0 hccM
    have hlen : (line.length : Int) ≤ L := hmem line (by simp)
    have hlen0 : (0 : Int) ≤ line.length := by positivity
    have hmem' : ∀ l ∈ rest, (l.length : Int) ≤ L :=
      fun l hl => hmem l (by simp [hl])
    simp only [summarizeGo]
    split
    case isTrue hhd =>
      have h1 : 1 ≤ (line.length : Int) := keptLine_len_pos line (Or.inl hhd)
      split
      case isTrue hbrk =>
        simp only [joinLenBound, List.foldr_cons, List.foldr_nil, diffMarker_len]
        omega
      case isFalse hbrk =>
        have hrec := ih (cc + line.length) hmem' hL (by omega) (by omega)
        simp only [joinLenBound, List.foldr_cons] at hrec ⊢
        omega
    case isFalse hhd =>
      split
      case isTrue hct =>
        split
        case isTrue hthr =>
          have h1 : 1 ≤ (line.length : Int) := keptLine_len_pos line (Or.inr hct)
          split
          case isTrue hbrk =>
            simp only [joinLenBound, List.foldr_cons, List.foldr_nil,
              diffMarker_len]
            omega
          case isFalse hbrk =>
            have hrec := ih (cc + line.length) hmem' hL (by omega) (by omega)
            simp only [joinLenBound, List.foldr_cons] at hrec ⊢
            omega
        case isFalse hthr =>
          split
          case isTrue hbrk =>
            simp only [joinLenBound, List.foldr_cons, List.foldr_nil,
              diffMarker_len]
            omega
          case isFalse hbrk =>
            have hrec := ih cc hmem' hL hcc0 hccM
            omega
      case isFalse hct =>
        split
        case isTrue hbrk =>
          simp only [joinLenBound, List.foldr_cons, List.foldr_nil,
            diffMarker_len]
          omega
        case isFalse hbrk =>
          have hrec := ih cc hmem' hL hcc0 hccM
          omega

/-! ## C1 -/

set_option maxRecDepth 8192 in
/-- C1: the claim that the per-section prompt builders accept an optional
iterative-feedback list and append its items is false of the code, and the
code is broken on its own terms: `PRPrompts.generate_why_prompt` takes
exactly two parameters, so the three-argument call made by
`PRGenerator.generate_why_section` raises `TypeError`, and the prompt the
function can build never contains a feedback item.  Evaluated here at a
concrete input. -/
theorem why_section_feedback_typeerror :
    generate_why_section (S "add caching") [S "cache.py"] none
        (some [S "mention the TTL"]) =
      Except.error (PyExc.typeError whyPromptArityMsg) ∧
    pyContainsSub (S "mention the TTL")
        (generate_why_prompt (S "add caching") [S "cache.py"]) = false :=
  ⟨rfl, by decide⟩

/-! ## C2 -/

/-- C2 counterexample: the claimed bound `len(output) ≤ budget + len(marker)`
fails — header lines are appended regardless of their length before the
budget check runs, so a single long `+++` header with budget 1 yields an
output of 35 characters, exceeding `1 + 20`. -/
theorem extract_diff_summary_no_budget_bound :
    ¬ ((extract_diff_summary (S "+++ aaaaaaaaaa") 1).length ≤
        1 + diffMarker.length) := by decide

/-- C2 (amended): for every diff string and every integer budget, the length
of `extract_diff_summary diff budget` is at most
`2 * (max budget 0 + maximum line length of the diff) + 23` — the budget
bound holds only up to one overshooting line per append and the newline
separators that `char_count` does not count. -/
theorem extract_diff_summary_length_bound (diff : PyStr) (b : Int) :
    ((extract_diff_summary diff b).length : Int) ≤
      2 * (max b 0 + maxLineLen (pySplitLines diff)) + 23 := by
  have hb := summarizeGo_bound b (maxLineLen (pySplitLines diff))
    (pySplitLines diff) 0 (fun l hl => mem_maxLineLen _ l hl)
    (maxLineLen_nonneg _) le_rfl (le_max_left _ _)
  have hj := joinNL_length_le (summarizeGo b (pySplitLines diff) 0)
  simp only [extract_diff_summary]
  omega

/-! ## C3 -/

theorem pySplitChar_ne_nil (sep : Char) : ∀ s : PyStr, pySplitChar sep s ≠ [] := by
  intro s
  cases s with
  | nil => simp [pySplitChar]
  | cons c rest =>
    simp only [pySplitChar]
    split
    · simp
    · split <;> simp

theorem pySplitChar_not_mem (sep : Char) :
    ∀ (s : PyStr) (l : PyStr), l ∈ pySplitChar sep s → sep ∉ l := by
  intro s
  induction s with
  | nil =>
    intro l hl
    simp [pySplitChar] at hl
    simp [hl]
  | cons c rest ih =>
    intro l hl
    simp only [pySplitChar] at hl
    by_cases hc : c = sep
    · rw [if_pos hc] at hl
      rcases List.mem_cons.mp hl with rfl | h
      · simp
      · exact ih l h
    · rw [if_neg hc] at hl
      cases hrec : pySplitChar sep rest with
      | nil => exact absurd hrec (pySplitChar_ne_nil sep rest)
      | cons m ms =>
        rw [hrec] at hl
        rcases List.mem_cons.mp hl with rfl | h
        · intro hmem
          rcases List.mem_cons.mp hmem with rfl | hmem'
          · exact hc rfl
          · exact ih m (by rw [hrec]; exact List.mem_cons_self m ms) hmem'
        · exact ih l (by rw [hrec]; exact List.mem_cons_of_mem m h)

theorem pySplitChar_single (sep : Char) :
    ∀ l : PyStr, sep ∉ l → pySplitChar sep l = [l] := by
  intro l
  induction l with
  | nil => intro _; simp [pySplitChar]
  | cons c t ih =>
    intro h
    have hc : ¬ c = sep := fun hcs => h (by simp [hcs])
    have ht : sep ∉ t := fun hts => h (List.mem_cons_of_mem c hts)
    simp only [pySplitChar, if_neg hc, ih ht]

theorem pySplitChar_append (sep : Char) :
    ∀ (l t : PyStr), sep ∉ l →
      pySplitChar sep (l ++ sep :: t) = l :: pySplitChar sep t := by
  intro l
  induction l with
  | nil => intro t _; simp [pySplitChar]
  | cons c l' ih =>
    intro t h
    have hc : ¬ c = sep := fun hcs => h (by simp [hcs])
    have hl' : sep ∉ l' := fun hts => h (List.mem_cons_of_mem c hts)
    simp only [List.cons_append, pySplitChar, if_neg hc, List.append_eq,
      ih t hl']

theorem pySplitLines_joinNL : ∀ ls : List PyStr,
    (∀ l ∈ ls, '\n' ∉ l) → ls ≠ [] → pySplitLines (joinNL ls) = ls := by
  intro ls
  induction ls with
  | nil => intro _ h; exact absurd rfl h
  | cons l ls ih =>
    intro hmem _
    cases ls with
    | nil =>
      simp only [joinNL]
      exact pySplitChar_single '\n' l (hmem l (by simp))
    | cons l' ls' =>
      simp only [joinNL, pySplitLines]
      rw [pySplitChar_append '\n' l (joinNL (l' :: ls')) (hmem l (by simp))]
      have := ih (fun x hx => hmem x (List.mem_cons_of_mem l hx)) (by simp)
      simp only [pySplitLines] at this
      rw [this]

theorem summarizeGo_mem (b : Int) : ∀ (lines : List PyStr) (cc : Int)
    (l : PyStr), l ∈ summarizeGo b lines cc → l ∈ lines ∨ l = diffMarker := by
  intro lines
  induction lines with
  | nil => intro cc l hl; simp [summarizeGo] at hl
  | cons x rest ih =>
    intro cc l hl
    simp only [summarizeGo] at hl
    split at hl
    · split at hl
      · rcases List.mem_cons.mp hl with rfl | hl'
        · exact Or.inl (by simp)
        · simp at hl'
          exact Or.inr hl'
      · rcases List.mem_cons.mp hl with rfl | hl'
        · exact Or.inl (by simp)
        · rcases ih _ l hl' with h | h
          · exact Or.inl (List.mem_cons_of_mem x h)
          · exact Or.inr h
    · split at hl
      · split at hl
        · split at hl
          · rcases List.mem_cons.mp hl with rfl | hl'
            · exact Or.inl (by simp)
            · simp at hl'
              exact Or.inr hl'
          · rcases List.mem_cons.mp hl with rfl | hl'
            · exact Or.inl (by simp)
            · rcases ih _ l hl' with h | h
              · exact Or.inl (List.mem_cons_of_mem x h)
              · exact Or.inr h
        · split at hl
          · simp at hl
            exact Or.inr hl
          · rcases ih _ l hl with h | h
            · exact Or.inl (List.mem_cons_of_mem x h)
            · exact Or.inr h
      · split at hl
        · simp at hl
          exact Or.inr hl
        · rcases ih _ l hl with h | h
          · exact Or.inl (List.mem_cons_of_mem x h)
          · exact Or.inr h


theorem summarizeGo_budget_pos (b : Int) (x : PyStr) (ls : List PyStr)
    (cc : Int) (hcc : 0 ≤ cc)
    (h : diffMarker ∉ summarizeGo b (x :: ls) cc) : cc < b := by
  by_contra hb
  push_neg at hb
  apply h
  have hx0 : (0 : Int) ≤ x.length := by positivity
  by_cases hhd : isHeaderLine x = true
  · simp [summarizeGo, hhd, show b ≤ cc + (x.length : Int) by omega]
  · by_cases hct : isContentLine x = true
    · by_cases hthr : 10 * cc < 7 * b
      · simp [summarizeGo, hhd, hct, hthr,
          show b ≤ cc + (x.length : Int) by omega]
      · simp [summarizeGo, hhd, hct, hthr, show b ≤ cc by omega]
    · simp [summarizeGo, hhd, hct, show b ≤ cc by omega]

theorem summarizeGo_stable (b b' : Int) (hb : b ≤ b') :
    ∀ (lines : List PyStr) (cc : Int), 0 ≤ cc → cc < b →
      diffMarker ∉ summarizeGo b lines cc →
      summarizeGo b' (summarizeGo b lines cc) cc = summarizeGo b lines cc := by
  intro lines
  induction lines with
  | nil => intro cc _ _ _; simp [summarizeGo]
  | cons x rest ih =>
    intro cc hcc0 hccb hnm
    by_cases hhd : isHeaderLine x = true
    · by_cases hbrk : b ≤ cc + (x.length : Int)
      · exact absurd (by simp [summarizeGo, hhd, hbrk]) hnm
      · have hout : summarizeGo b (x :: rest) cc =
            x :: summarizeGo b rest (cc + x.length) := by
          simp [summarizeGo, hhd, hbrk]
        rw [hout] at hnm ⊢
        have hnm' : diffMarker ∉ summarizeGo b rest (cc + x.length) :=
          fun hm => hnm (List.mem_cons_of_mem x hm)
        have hrec := ih (cc + x.length) (by positivity) (by omega) hnm'
        simp only [summarizeGo, hhd, if_true,
          show ¬ (b' ≤ cc + (x.length : Int)) by omega, if_false, hrec]
    · by_cases hct : isContentLine x = true
      · by_cases hthr : 10 * cc < 7 * b
        · by_cases hbrk : b ≤ cc + (x.length : Int)
          · exact absurd (by simp [summarizeGo, hhd, hct, hthr, hbrk]) hnm
          · have hout : summarizeGo b (x :: rest) cc =
                x :: summarizeGo b rest (cc + x.length) := by
              simp [summarizeGo, hhd, hct, hthr, hbrk]
            rw [hout] at hnm ⊢
            have hnm' : diffMarker ∉ summarizeGo b rest (cc + x.length) :=
              fun hm => hnm (List.mem_cons_of_mem x hm)
            have hrec := ih (cc + x.length) (by positivity) (by omega) hnm'
            simp only [summarizeGo, hhd, hct, if_true, if_false,
              Bool.false_eq_true,
              show 10 * cc < 7 * b' by omega,
              show ¬ (b' ≤ cc + (x.length : Int)) by omega, hrec]
        · have hout : summarizeGo b (x :: rest) cc = summarizeGo b rest cc := by
            simp [summarizeGo, hhd, hct, hthr, show ¬ (b ≤ cc) by omega]
          rw [hout] at hnm ⊢
          exact ih cc hcc0 hccb hnm
      · have hout : summarizeGo b (x :: rest) cc = summarizeGo b rest cc := by
          simp [summarizeGo, hhd, hct, show ¬ (b ≤ cc) by omega]
        rw [hout] at hnm ⊢
        exact ih cc hcc0 hccb hnm

/-- C3 counterexample: re-summarization is not idempotent — the truncation
marker line starts with `...`, which the scanner classifies as neither a
header nor a content line, so a second pass drops it: summarizing
`"+++ aa\n+++ bb"` with budget 5 truncates, and re-summarizing the result
with the larger budget 100 loses the marker. -/
theorem extract_diff_summary_not_idempotent :
    (5 : Int) ≤ 100 ∧
    extract_diff_summary (extract_diff_summary (S "+++ aa\n+++ bb") 5) 100 ≠
      extract_diff_summary (S "+++ aa\n+++ bb") 5 := by decide

/-- C3 (amended): re-summarization with the same or a larger budget is
idempotent provided the first pass did not truncate, i.e. its kept-line
list contains no truncation marker; when truncation occurred the marker
line is dropped by the second pass. -/
theorem extract_diff_summary_idempotent_untruncated (diff : PyStr)
    (b b' : Int) (hb : b ≤ b')
    (hnm : diffMarker ∉ summarizeGo b (pySplitLines diff) 0) :
    extract_diff_summary (extract_diff_summary diff b) b' =
      extract_diff_summary diff b := by
  obtain ⟨x, ls, hxl⟩ : ∃ x ls, pySplitLines diff = x :: ls := by
    cases h : pySplitLines diff with
    | nil => exact absurd h (pySplitChar_ne_nil '\n' diff)
    | cons x ls => exact ⟨x, ls, rfl⟩
  have hbpos : (0 : Int) < b := by
    have := summarizeGo_budget_pos b x ls 0 le_rfl (hxl ▸ hnm)
    omega
  by_cases hnil : summarizeGo b (pySplitLines diff) 0 = []
  · simp only [extract_diff_summary, hnil, joinNL]
    have hsplit : pySplitLines ([] : PyStr) = [([] : PyStr)] := rfl
    rw [hsplit]
    have hgo : summarizeGo b' [([] : PyStr)] 0 = [] := by
      simp [summarizeGo, show isHeaderLine [] = false by decide,
        show isContentLine [] = false by decide, show ¬ ((b' : Int) ≤ 0) by omega]
    rw [hgo]
    rfl
  · have hnoNL : ∀ l ∈ summarizeGo b (pySplitLines diff) 0, '\n' ∉ l := by
      intro l hl
      rcases summarizeGo_mem b (pySplitLines diff) 0 l hl with hmem | rfl
      · exact pySplitChar_not_mem '\n' diff l hmem
      · exact absurd hl hnm
    have hsplit := pySplitLines_joinNL (summarizeGo b (pySplitLines diff) 0)
      hnoNL hnil
    simp only [extract_diff_summary]
    rw [hsplit, summarizeGo_stable b b' hb (pySplitLines diff) 0 le_rfl
      hbpos hnm]

/-- Witness for the amended C3 theorem at a concrete untruncated input. -/
theorem extract_diff_summary_idempotent_witness :
    extract_diff_summary (extract_diff_summary (S "+++ aa") 50) 60 =
      extract_diff_summary (S "+++ aa") 50 :=
  extract_diff_summary_idempotent_untruncated (S "+++ aa") 50 60
    (by decide) (by decide)

/-! ## C4 -/

theorem ne_of_getElem? (l1 l2 : PyStr) (i : Nat) (c1 c2 : Char)
    (h1 : l1[i]? = some c1) (h2 : l2[i]? = some c2) (hc : c1 ≠ c2) :
    l1 ≠ l2 := by
  intro he
  subst he
  rw [h1] at h2
  exact hc (Option.some.inj h2)

theorem requestFailMsg_nth (x : PyStr) : (requestFailMsg x)[8]? = some 'r' := by
  show (S "Copilot request failed: " ++ x)[8]? = some 'r'
  rw [List.getElem?_append,
    if_pos (by decide : 8 < (S "Copilot request failed: ").length)]
  decide

theorem requestFailMsg_nth0 (x : PyStr) : (requestFailMsg x)[0]? = some 'C' := by
  show (S "Copilot request failed: " ++ x)[0]? = some 'C'
  rw [List.getElem?_append,
    if_pos (by decide : 0 < (S "Copilot request failed: ").length)]
  decide

theorem parseFailMsg_nth (y : PyStr) : (parseFailMsg y)[0]? = some 'F' := by
  show (S "Failed to parse Copilot response: " ++ y)[0]? = some 'F'
  rw [List.getElem?_append,
    if_pos (by decide : 0 < (S "Failed to parse Copilot response: ").length)]
  decide

/-- C4 counterexample: evaluated at concrete outcomes, the authentication
failure (status 401), the generic request failure (status 503) and the
malformed-response failure (success status, undecodable body) are all
raised as the very same exception class `LLMError`, so the three failure
kinds are not distinct non-overlapping kinds a caller can tell apart by
catching them; a connection failure is not even mapped to a client error
but escapes as the transport exception. -/
theorem copilot_failure_kinds_overlap :
    errClass (copilotPost (fun _ => []) [] (.response 401 none)) =
        some (S "LLMError") ∧
    errClass (copilotPost (fun _ => []) [] (.response 503 none)) =
        some (S "LLMError") ∧
    errClass (copilotPost (fun _ => []) [] (.response 200 none)) =
        some (S "LLMError") ∧
    errClass (copilotPost (fun _ => []) [] .connFailure) ≠
        some (S "LLMError") := by
  refine ⟨rfl, rfl, rfl, ?_⟩
  decide

/-- C4 (amended): every failure `_post` classifies is raised as the single
exception class `LLMError`; the three cases — unauthorized status, other
non-success status, undecodable body — carry pairwise distinct message
texts and are distinguishable only by those texts, while a connection
failure is not caught and propagates as the exception class of the
transport library, distinct from `LLMError`. -/
theorem copilotPost_error_classification :
    (∀ (rH : Nat → PyStr) (rJ : PyStr) (body : Option CopilotData),
      copilotPost rH rJ (.response 401 body) = .error (.llmError authFailMsg)) ∧
    (∀ (rH : Nat → PyStr) (rJ : PyStr) (status : Nat)
      (body : Option CopilotData), 400 ≤ status → status < 600 →
      status ≠ 401 →
      copilotPost rH rJ (.response status body) =
        .error (.llmError (requestFailMsg (rH status)))) ∧
    (∀ (rH : Nat → PyStr) (rJ : PyStr) (status : Nat),
      ¬ (400 ≤ status ∧ status < 600) →
      copilotPost rH rJ (.response status none) =
        .error (.llmError (parseFailMsg rJ))) ∧
    (∀ (rH : Nat → PyStr) (rJ : PyStr),
      copilotPost rH rJ .connFailure = .error .connectionError) ∧
    (∀ x y : PyStr, authFailMsg ≠ requestFailMsg x ∧
      authFailMsg ≠ parseFailMsg y ∧ requestFailMsg x ≠ parseFailMsg y) ∧
    (∀ msg : PyStr, excClass (.llmError msg) ≠ excClass .connectionError) := by
  refine ⟨?_, ?_, ?_, ?_, ?_, ?_⟩
  · intro rH rJ body
    simp [copilotPost]
  · intro rH rJ status body h1 h2 h3
    simp only [copilotPost, if_pos (And.intro h1 h2), if_neg h3]
  · intro rH rJ status h
    simp only [copilotPost, if_neg h]
  · intro rH rJ
    rfl
  · intro x y
    refine ⟨?_, ?_, ?_⟩
    · exact ne_of_getElem? _ _ 8 'a' 'r' (by decide) (requestFailMsg_nth x)
        (by decide)
    · exact ne_of_getElem? _ _ 0 'C' 'F' (by decide) (parseFailMsg_nth y)
        (by decide)
    · exact ne_of_getElem? _ _ 0 'C' 'F' (requestFailMsg_nth0 x)
        (parseFailMsg_nth y) (by decide)
  · intro msg
    show S "LLMError" ≠ S "ConnectionError"
    decide

/-- Witness instantiating each part of the amended C4 theorem at concrete
statuses and renderers. -/
theorem copilotPost_error_classification_witness :
    copilotPost (fun _ => []) [] (.response 401 none) =
        .error (.llmError authFailMsg) ∧
    copilotPost (fun _ => []) [] (.response 503 none) =
        .error (.llmError (requestFailMsg [])) ∧
    copilotPost (fun _ => []) [] (.response 204 none) =
        .error (.llmError (parseFailMsg [])) ∧
    copilotPost (fun _ => []) [] .connFailure = .error .connectionError ∧
    (authFailMsg ≠ requestFailMsg (S "x") ∧ authFailMsg ≠ parseFailMsg (S "y") ∧
      requestFailMsg (S "x") ≠ parseFailMsg (S "y")) ∧
    excClass (.llmError (S "m")) ≠ excClass .connectionError :=
  ⟨copilotPost_error_classification.1 (fun _ => []) [] none,
   copilotPost_error_classification.2.1 (fun _ => []) [] 503 none
     (by decide) (by decide) (by decide),
   copilotPost_error_classification.2.2.1 (fun _ => []) [] 204 (by decide),
   copilotPost_error_classification.2.2.2.1 (fun _ => []) [],
   copilotPost_error_classification.2.2.2.2.1 (S "x") (S "y"),
   copilotPost_error_classification.2.2.2.2.2 (S "m")⟩

/-! ## C5 -/

/-- C5 counterexample: a backend response whose content is a block list
with no text-bearing block normalizes to the empty string, which passes
the `isinstance(content, str)` check — `generate` returns the empty string
as a successful result instead of raising, although the response carries
no usable text. -/
theorem copilotGenerate_empty_success :
    hasNoUsableText ⟨some [⟨some ⟨some (.blocks [])⟩⟩]⟩ = true ∧
    copilotGenerate (fun _ => []) []
        (.response 200 (some ⟨some [⟨some ⟨some (.blocks [])⟩⟩]⟩)) =
      Except.ok [] :=
  ⟨rfl, rfl⟩

/-- C5 (amended): on a decodable success-status response, `generate` raises
exactly when the `choices` list is empty or the `content` field of the
first choice is absent; a `content` that is an empty string, or a block list that
normalizes to no text, is returned as an empty-string success rather than
raising. -/
theorem copilotGenerate_error_iff (rH : Nat → PyStr) (rJ : PyStr)
    (data : CopilotData) :
    (errClass (copilotGenerate rH rJ (.response 200 (some data))) =
        some (S "LLMError")) ↔
      (data.choices.getD [] = [] ∨ contentOfFirst data = none) := by
  have hpost : copilotPost rH rJ (.response 200 (some data)) = .ok data := by
    simp [copilotPost]
  cases hch : data.choices.getD [] with
  | nil =>
    simp only [copilotGenerate, hpost, hch, contentOfFirst]
    simp [errClass, excClass]
  | cons choice rest =>
    simp only [copilotGenerate, hpost, hch, contentOfFirst]
    cases hct : (choice.message.getD ⟨none⟩).content with
    | none => simp [errClass, excClass]
    | some c =>
      cases c with
      | str s => simp [errClass, excClass]
      | blocks bs => simp [errClass, excClass]

/-! ## C6 -/

theorem dropWhile_append_split (p : Char → Bool) :
    ∀ l₁ l₂ : PyStr, List.dropWhile p (l₁ ++ l₂) =
      if (List.dropWhile p l₁).isEmpty then List.dropWhile p l₂
      else List.dropWhile p l₁ ++ l₂ := by
  intro l₁
  induction l₁ with
  | nil => intro l₂; simp
  | cons c t ih =>
    intro l₂
    by_cases hc : p c = true
    · simp only [List.cons_append, List.dropWhile_cons, hc, if_true, ih l₂]
    · simp only [List.cons_append, List.dropWhile_cons, hc, if_false,
        Bool.false_eq_true, List.isEmpty_cons]

theorem dropWhile_all_false (p : Char → Bool) :
    ∀ l : PyStr, (∀ c ∈ l, p c = false) → List.dropWhile p l = l := by
  intro l hl
  induction l with
  | nil => simp
  | cons c t ih =>
    simp only [List.dropWhile_cons, hl c (by simp), if_false,
      Bool.false_eq_true]

theorem isPrefixOf_append_self : ∀ a b : PyStr,
    List.isPrefixOf a (a ++ b) = true := by
  intro a b
  induction a with
  | nil => simp [List.isPrefixOf]
  | cons c t ih => simp [List.isPrefixOf, ih]

theorem isPrefixOf_exists : ∀ a s : PyStr, List.isPrefixOf a s = true →
    ∃ t, s = a ++ t := by
  intro a
  induction a with
  | nil => intro s _; exact ⟨s, rfl⟩
  | cons c t ih =>
    intro s h
    cases s with
    | nil => simp [List.isPrefixOf] at h
    | cons c' s' =>
      simp only [List.isPrefixOf, Bool.and_eq_true, beq_iff_eq] at h
      obtain ⟨rfl, h2⟩ := h
      obtain ⟨u, rfl⟩ := ih s' h2
      exact ⟨u, rfl⟩

theorem pyRStrip_append_nonspace (a b : PyStr)
    (hns : ∀ c ∈ a, pyIsSpace c = false) :
    pyRStrip (a ++ b) = a ++ pyRStrip b := by
  simp only [pyRStrip, List.reverse_append]
  rw [dropWhile_append_split]
  by_cases hb : (List.dropWhile pyIsSpace b.reverse).isEmpty = true
  · rw [if_pos hb]
    rw [dropWhile_all_false pyIsSpace a.reverse
      (fun c hc => hns c (List.mem_reverse.mp hc))]
    rw [List.isEmpty_iff.mp hb]
    simp
  · rw [if_neg hb]
    simp

theorem pyStrip_keeps_front (tk b : PyStr)
    (hns : ∀ c ∈ tk, pyIsSpace c = false) :
    List.isPrefixOf tk (pyStrip (tk ++ b)) = true := by
  cases tk with
  | nil => simp [List.isPrefixOf]
  | cons c t =>
    simp only [pyStrip, pyLStrip, List.cons_append, List.dropWhile_cons,
      hns c (by simp), if_false, Bool.false_eq_true, ite_false]
    rw [show (c :: (t ++ b)) = (c :: t) ++ b from rfl,
      pyRStrip_append_nonspace (c :: t) b hns]
    exact isPrefixOf_append_self (c :: t) (pyRStrip b)

/-- C6: the title returned by `generate_title` always begins with the
ticket identifier (for any ticket identifier, which contains no whitespace
character): a reply already carrying the ticket prefix is kept, any other
reply is re-derived — text after the first colon if one is present, else
the whole reply — and prefixed with `<ticket>: `; in particular ticket
`STAR-5` with raw reply `Fix bug in parser` yields exactly
`STAR-5: Fix bug in parser`. -/
theorem generate_title_ticket_first :
    (∀ ticket_number title0 : PyStr,
      (∀ c ∈ ticket_number, pyIsSpace c = false) →
      List.isPrefixOf ticket_number
        (generate_title ticket_number title0) = true) ∧
    generate_title (S "STAR-5") (S "Fix bug in parser") =
      S "STAR-5: Fix bug in parser" := by
  constructor
  · intro tk t0 hns
    simp only [generate_title]
    by_cases hpre : List.isPrefixOf tk t0 = true
    · simp only [hpre, if_true]
      obtain ⟨rest, rfl⟩ := isPrefixOf_exists tk t0 hpre
      exact pyStrip_keeps_front tk rest hns
    · simp only [hpre, if_false, Bool.false_eq_true, ite_false]
      rw [show tk ++ S ": " ++
          (if t0.contains ':' then pyStrip (pyAfterFirst ':' t0)
           else pyStrip t0) =
          tk ++ (S ": " ++
          (if t0.contains ':' then pyStrip (pyAfterFirst ':' t0)
           else pyStrip t0)) from by simp]
      exact pyStrip_keeps_front tk _ hns
  · decide

/-- Witness for the C6 theorem at a concrete ticket and reply. -/
theorem generate_title_ticket_first_witness :
    List.isPrefixOf (S "STAR-9")
      (generate_title (S "STAR-9") (S "done: stuff")) = true :=
  generate_title_ticket_first.1 (S "STAR-9") (S "done: stuff") (by decide)

/-! ## C7 -/

/-- C7: in `format_pr_body`, the emitted body of the final template section is
forced to the sentinel whenever the generated content is empty or equals
the sentinel case-insensitively; in particular assembling two sections with
bodies `x` and the empty string yields a document whose last section body
is exactly the sentinel. -/
theorem format_pr_body_last_sentinel :
    (∀ (sections template_sections : List PyStr),
      template_sections ≠ [] →
      (sections.getD (template_sections.length - 1) [] = [] ∨
        pyLower (sections.getD (template_sections.length - 1) []) =
          S "no additional notes.") →
      emittedContent sections template_sections.length
        (template_sections.length - 1) = sentinelNote) ∧
    format_pr_body [S "x", []] [S "H1", S "H2"] =
      S "## H1\n\nx\n\n## H2\n\nNo additional notes." := by
  constructor
  · intro sections ts hne h
    simp only [emittedContent]
    rw [if_pos trivial]
    rcases h with h | h
    · rw [if_neg]
      intro hcon
      exact hcon.1 h
    · rw [if_neg]
      intro hcon
      exact hcon.2 h
  · decide

/-- Witness for the C7 theorem at the concrete two-section input of the claim. -/
theorem format_pr_body_last_sentinel_witness :
    emittedContent [S "x", []] 2 1 = sentinelNote :=
  format_pr_body_last_sentinel.1 [S "x", []] [S "H1", S "H2"] (by decide)
    (Or.inl (by decide))


/-! ## C8 -/

theorem ciStarNumB_build (c1 c2 c3 c4 c5 : Char) (ds : PyStr)
    (h1 : ciMatch 's' 'S' c1 = true) (h2 : ciMatch 't' 'T' c2 = true)
    (h3 : ciMatch 'a' 'A' c3 = true) (h4 : ciMatch 'r' 'R' c4 = true)
    (h5 : c5 = '-') (hne : ds ≠ []) (hall : ∀ x ∈ ds, x.isDigit = true) :
    ciStarNumB (c1 :: c2 :: c3 :: c4 :: c5 :: ds) = true := by
  cases ds with
  | nil => exact absurd rfl hne
  | cons d ds' =>
    simp [ciStarNumB, h1, h2, h3, h4, h5, List.all_eq_true]
    exact ⟨hall d (by simp), fun x hx => hall x (by simp [hx])⟩

theorem ciStarNumB_elim (v : PyStr) (hv : ciStarNumB v = true) :
    ∃ c1 c2 c3 c4 ds, v = c1 :: c2 :: c3 :: c4 :: '-' :: ds ∧
      ciMatch 's' 'S' c1 = true ∧ ciMatch 't' 'T' c2 = true ∧
      ciMatch 'a' 'A' c3 = true ∧ ciMatch 'r' 'R' c4 = true ∧
      ds ≠ [] ∧ ∀ x ∈ ds, x.isDigit = true := by
  match v with
  | [] => exact absurd hv (by simp [ciStarNumB])
  | [c1] => exact absurd hv (by simp [ciStarNumB])
  | [c1, c2] => exact absurd hv (by simp [ciStarNumB])
  | [c1, c2, c3] => exact absurd hv (by simp [ciStarNumB])
  | [c1, c2, c3, c4] => exact absurd hv (by simp [ciStarNumB])
  | c1 :: c2 :: c3 :: c4 :: c5 :: ds =>
    simp only [ciStarNumB, Bool.and_eq_true, decide_eq_true_eq,
      Bool.not_eq_true', List.all_eq_true] at hv
    obtain ⟨⟨⟨⟨⟨⟨h1, h2⟩, h3⟩, h4⟩, h5⟩, h6⟩, h7⟩ := hv
    subst h5
    refine ⟨c1, c2, c3, c4, ds, rfl, h1, h2, h3, h4, ?_, h7⟩
    intro hds
    subst hds
    simp at h6

theorem matchStarAt_sound (s m : PyStr) (h : matchStarAt s = some m) :
    ciStarNumB m = true ∧ ∃ w, s = m ++ w := by
  match s with
  | [] => exact absurd h (by simp [matchStarAt])
  | [c1] => exact absurd h (by simp [matchStarAt])
  | [c1, c2] => exact absurd h (by simp [matchStarAt])
  | [c1, c2, c3] => exact absurd h (by simp [matchStarAt])
  | [c1, c2, c3, c4] => exact absurd h (by simp [matchStarAt])
  | c1 :: c2 :: c3 :: c4 :: c5 :: rest =>
    simp only [matchStarAt] at h
    by_cases hci : (ciMatch 's' 'S' c1 && ciMatch 't' 'T' c2 &&
        ciMatch 'a' 'A' c3 && ciMatch 'r' 'R' c4 && (c5 = '-' : Bool)) = true
    · rw [if_pos hci] at h
      cases rest with
      | nil => exact absurd h (by simp)
      | cons d rest' =>
        dsimp only at h
        by_cases hd : d.isDigit = true
        · rw [if_pos hd] at h
          rw [Option.some.injEq] at h
          subst h
          simp only [Bool.and_eq_true, decide_eq_true_eq] at hci
          obtain ⟨⟨⟨⟨h1, h2⟩, h3⟩, h4⟩, h5⟩ := hci
          constructor
          · simp only [List.cons_append, List.nil_append]
            refine ciStarNumB_build c1 c2 c3 c4 c5 _ h1 h2 h3 h4 h5 ?_ ?_
            · simp [List.takeWhile_cons, hd]
            · intro x hx
              exact List.mem_takeWhile_imp hx
          · refine ⟨(d :: rest').dropWhile Char.isDigit, ?_⟩
            simp only [List.cons_append, List.nil_append, List.append_assoc]
            rw [List.takeWhile_append_dropWhile]
        · rw [if_neg hd] at h
          exact absurd h (by simp)
    · rw [if_neg hci] at h
      exact absurd h (by simp)

theorem matchStarAt_of_occ (v w : PyStr) (hv : ciStarNumB v = true) :
    ∃ m, matchStarAt (v ++ w) = some m := by
  obtain ⟨c1, c2, c3, c4, ds, rfl, h1, h2, h3, h4, hne, hall⟩ :=
    ciStarNumB_elim v hv
  cases ds with
  | nil => exact absurd rfl hne
  | cons d ds' =>
    have hd : d.isDigit = true := hall d (by simp)
    have hcond : (ciMatch 's' 'S' c1 && ciMatch 't' 'T' c2 &&
        ciMatch 'a' 'A' c3 && ciMatch 'r' 'R' c4 &&
        (('-' : Char) = '-' : Bool)) = true := by
      simp [h1, h2, h3, h4]
    refine ⟨[c1, c2, c3, c4, '-'] ++
      ((d :: ds') ++ w).takeWhile Char.isDigit, ?_⟩
    show matchStarAt (c1 :: c2 :: c3 :: c4 :: '-' :: ((d :: ds') ++ w)) =
      some _
    simp only [matchStarAt, List.cons_append, hd]
    simp [h1, h2, h3, h4]

theorem reSearchStar_finds : ∀ (u v w : PyStr), ciStarNumB v = true →
    ∃ v', ciStarNumB v' = true ∧ (∃ u' w', u ++ v ++ w = u' ++ v' ++ w') ∧
      reSearchStar (u ++ v ++ w) = some v' := by
  intro u
  induction u with
  | nil =>
    intro v w hv
    obtain ⟨m, hm⟩ := matchStarAt_of_occ v w hv
    obtain ⟨hci, w', hw'⟩ := matchStarAt_sound (v ++ w) m hm
    have hvw : ∃ c rest, v ++ w = c :: rest := by
      cases hvv : v with
      | nil => rw [hvv] at hv; exact absurd hv (by simp [ciStarNumB])
      | cons c t => exact ⟨c, t ++ w, by simp⟩
    obtain ⟨c, rest, hcr⟩ := hvw
    refine ⟨m, hci, ⟨[], w', by simpa using hw'⟩, ?_⟩
    simp only [List.nil_append]
    rw [hcr] at hm ⊢
    unfold reSearchStar
    rw [hm]
  | cons x u' ih =>
    intro v w hv
    cases hmx : matchStarAt (x :: (u' ++ v ++ w)) with
    | some m =>
      obtain ⟨hci, w', hw'⟩ := matchStarAt_sound _ m hmx
      refine ⟨m, hci, ⟨[], w', by simpa using hw'⟩, ?_⟩
      show reSearchStar (x :: (u' ++ v ++ w)) = some m
      unfold reSearchStar
      rw [hmx]
    | none =>
      obtain ⟨v', hci, ⟨u'', w'', hdec⟩, hsearch⟩ := ih v w hv
      refine ⟨v', hci, ⟨x :: u'', w'', by simp [hdec]⟩, ?_⟩
      show reSearchStar (x :: (u' ++ v ++ w)) = some v'
      unfold reSearchStar
      rw [hmx, hsearch]

theorem hasStarOcc_of_decomp (u v w : PyStr) (hv : ciStarNumB v = true) :
    hasStarOcc (u ++ v ++ w) = true := by
  simp only [hasStarOcc, List.any_eq_true, List.mem_range]
  refine ⟨u.length, by simp [List.length_append]; omega, v.length,
    by simp [List.length_append]; omega, ?_⟩
  rw [List.append_assoc, List.drop_left, List.take_left]
  exact hv

theorem decomp_of_hasStarOcc (b : PyStr) (h : hasStarOcc b = true) :
    ∃ u v w, b = u ++ v ++ w ∧ ciStarNumB v = true := by
  simp only [hasStarOcc, List.any_eq_true, List.mem_range] at h
  obtain ⟨i, hi, k, hk, hv⟩ := h
  refine ⟨b.take i, (b.drop i).take k, (b.drop i).drop k, ?_, hv⟩
  rw [List.append_assoc, List.take_append_drop, List.take_append_drop]

theorem reSearchStar_none (b : PyStr) (hno : hasStarOcc b = false) :
    reSearchStar b = none := by
  induction b with
  | nil => rfl
  | cons x b' ih =>
    have hmx : matchStarAt (x :: b') = none := by
      cases hm : matchStarAt (x :: b') with
      | none => rfl
      | some m =>
        obtain ⟨hci, w', hw'⟩ := matchStarAt_sound _ m hm
        have htrue : hasStarOcc (x :: b') = true := by
          have hocc := hasStarOcc_of_decomp [] m w' hci
          rw [List.nil_append] at hocc
          rw [hw']
          exact hocc
        rw [htrue] at hno
        cases hno
    have hno' : hasStarOcc b' = false := by
      cases hb' : hasStarOcc b' with
      | false => rfl
      | true =>
        obtain ⟨u, v, w, hdec, hv⟩ := decomp_of_hasStarOcc b' hb'
        have htrue : hasStarOcc (x :: b') = true := by
          have hocc := hasStarOcc_of_decomp (x :: u) v w hv
          rw [hdec]
          exact hocc
        rw [htrue] at hno
        cases hno
    unfold reSearchStar
    rw [hmx, ih hno']

/-- C8: with the default pattern `STAR-(\d+)`, stage-1 extraction performs
a case-insensitive search: whenever the branch name contains an occurrence
of `STAR-<digits>` in any case and at any position, it returns the full
matched substring upper-cased (the leftmost match, itself such an
occurrence within the branch name), and it returns `None` whenever the
branch name contains no such occurrence. -/
theorem extract_ticket_number_pattern :
    (∀ (b u v w : PyStr), b = u ++ v ++ w → ciStarNumB v = true →
      ∃ v', ciStarNumB v' = true ∧ (∃ u' w', b = u' ++ v' ++ w') ∧
        extract_ticket_number b = some (pyUpper v')) ∧
    (∀ b : PyStr, hasStarOcc b = false → extract_ticket_number b = none) := by
  constructor
  · intro b u v w hb hv
    subst hb
    obtain ⟨v', hci, hdec, hsearch⟩ := reSearchStar_finds u v w hv
    refine ⟨v', hci, hdec, ?_⟩
    unfold extract_ticket_number
    rw [hsearch]
  · intro b hno
    unfold extract_ticket_number
    rw [reSearchStar_none b hno]

/-- Witness for the C8 theorem: a branch with a mixed-case mid-string
occurrence, and one with none. -/
theorem extract_ticket_number_pattern_witness :
    (∃ v', ciStarNumB v' = true ∧
      (∃ u' w', S "feature/sTar-42x" = u' ++ v' ++ w') ∧
      extract_ticket_number (S "feature/sTar-42x") = some (pyUpper v')) ∧
    extract_ticket_number (S "no-ticket-here") = none :=
  ⟨extract_ticket_number_pattern.1 (S "feature/sTar-42x") (S "feature/")
      (S "sTar-42") (S "x") (by decide) (by decide),
   extract_ticket_number_pattern.2 (S "no-ticket-here") (by decide)⟩

/-! ## C9 -/

theorem foldl_append_filterMap (f : PyStr → Option PyStr) :
    ∀ (ls acc : List PyStr),
      List.foldl (fun sections line =>
        match f line with
        | some h => sections ++ [h]
        | none => sections) acc ls = acc ++ ls.filterMap f := by
  intro ls
  induction ls with
  | nil => intro acc; simp
  | cons l ls ih =>
    intro acc
    simp only [List.foldl_cons, List.filterMap_cons]
    cases hf : f l with
    | none => simp only [hf, ih]
    | some h => simp only [hf, ih, List.append_assoc, List.singleton_append]

theorem dropWhile_head_not (p : Char → Bool) :
    ∀ (l : PyStr) (c : Char) (rest : PyStr),
      l.dropWhile p = c :: rest → p c = false := by
  intro l
  induction l with
  | nil => intro c rest h; simp at h
  | cons x t ih =>
    intro c rest h
    by_cases hx : p x = true
    · rw [List.dropWhile_cons, if_pos hx] at h
      exact ih c rest h
    · rw [List.dropWhile_cons, if_neg hx] at h
      cases h
      simpa using hx

theorem pyRStrip_eq_nil_iff (l : PyStr) :
    pyRStrip l = [] ↔ ∀ c ∈ l, pyIsSpace c = true := by
  unfold pyRStrip
  rw [List.reverse_eq_nil_iff, List.dropWhile_eq_nil_iff]
  constructor
  · intro h c hc
    exact h c (List.mem_reverse.mpr hc)
  · intro h c hc
    exact h c (List.mem_reverse.mp hc)

theorem pyStrip_all_space (l : PyStr) (h : ∀ c ∈ l, pyIsSpace c = true) :
    pyStrip l = [] := by
  unfold pyStrip pyLStrip
  rw [List.dropWhile_eq_nil_iff.mpr h]
  rfl

theorem pyLStrip_cons_nonspace (c : Char) (t : PyStr)
    (h : pyIsSpace c = false) : pyLStrip (c :: t) = c :: t := by
  unfold pyLStrip
  rw [List.dropWhile_cons, if_neg (by simp [h])]

theorem lineHeading_eq_claimHeading (line : PyStr) :
    lineHeading line = claimHeading line := by
  unfold lineHeading claimHeading reMatchHeading
  dsimp only
  by_cases hn : ((pyStrip line).takeWhile (fun c => (c = '#' : Bool))).length = 2 ∨
      ((pyStrip line).takeWhile (fun c => (c = '#' : Bool))).length = 3
  · rw [if_pos hn]
    cases hrest : (pyStrip line).dropWhile (fun c => (c = '#' : Bool)) with
    | nil => simp [hrest]
    | cons c cs =>
      dsimp only
      by_cases hp : pyIsSpace c = true
      · rw [if_pos hp]
        rw [show List.dropWhile pyIsSpace (c :: cs) =
          List.dropWhile pyIsSpace cs from by
            rw [List.dropWhile_cons, if_pos hp]]
        cases hg : cs.dropWhile pyIsSpace with
        | cons cq gq =>
          have hpq : pyIsSpace cq = false :=
            dropWhile_head_not pyIsSpace cs cq gq hg
          rw [if_pos (by simp : (cq :: gq : PyStr) ≠ [])]
          dsimp only
          have hstrip : pyStrip (cq :: gq) = pyRStrip (cq :: gq) := by
            unfold pyStrip
            rw [pyLStrip_cons_nonspace cq gq hpq]
          have hne : pyStrip (cq :: gq) ≠ [] := by
            rw [hstrip]
            intro hcon
            have := (pyRStrip_eq_nil_iff (cq :: gq)).mp hcon cq (by simp)
            rw [this] at hpq
            cases hpq
          rw [if_pos hne]
          rw [if_pos ⟨hn, by simp [List.takeWhile_cons, hp], by simp⟩]
        | nil =>
          rw [if_neg (by simp : ¬ (([] : PyStr) ≠ []))]
          have hcsall : ∀ x ∈ cs, pyIsSpace x = true :=
            List.dropWhile_eq_nil_iff.mp hg
          cases cs with
          | nil =>
            rw [if_neg (by simp : ¬ (([] : PyStr) ≠ []))]
            rw [if_neg]
            intro hcon
            exact hcon.2.2 rfl
          | cons x cs2 =>
            rw [if_pos (by simp : (x :: cs2 : PyStr) ≠ [])]
            dsimp only
            have halldrop : ∀ y ∈ (c :: x :: cs2 : PyStr).drop
                ((c :: x :: cs2 : PyStr).length - 1), pyIsSpace y = true := by
              intro y hy
              have hsub : y ∈ (c :: x :: cs2 : PyStr) :=
                List.drop_subset _ _ hy
              rcases List.mem_cons.mp hsub with rfl | hy2
              · exact hp
              · exact hcsall y hy2
            rw [if_neg (by
              simp only [ne_eq, not_not]
              exact pyStrip_all_space _ halldrop)]
            rw [if_neg]
            intro hcon
            exact hcon.2.2 rfl
      · rw [if_neg hp]
        rw [if_neg]
        intro hcon
        have := hcon.2.1
        rw [List.takeWhile_cons, if_neg hp] at this
        simp at this
  · rw [if_neg hn]
    rw [if_neg]
    intro hcon
    exact hn hcon.1

/-- C9: a line is accepted as a template section heading exactly when,
after trimming, it has 2 or 3 leading `#` characters, one or more
whitespace characters, then non-empty text; the extracted heading is that
text trimmed, appearance order is preserved and nothing is de-duplicated
(the parse equals the filter of the per-line acceptor over the lines in
order); in particular `"## A\n\n### B\n\n# C\n"` parses to exactly
`["A", "B"]`. -/
theorem parse_template_sections_headings :
    parse_template_sections (S "## A\n\n### B\n\n# C\n") = [S "A", S "B"] ∧
    ∀ content : PyStr, parse_template_sections content = claimParse content := by
  constructor
  · decide
  · intro content
    by_cases hc : content = []
    · subst hc
      decide
    · unfold parse_template_sections claimParse
      rw [if_neg hc]
      rw [foldl_append_filterMap lineHeading (pySplitLines content) []]
      rw [List.nil_append]
      rw [funext lineHeading_eq_claimHeading]

/-! ## C10 -/

/-- C10: if diff retrieval fails with any exception, `generate_description`
swallows it — the `try/except` substitutes the empty string, and the whole
run proceeds exactly as a run whose diff retrieval returned the empty
string: sections are generated from the changed-file list and commit
messages with an empty diff, and no diff-retrieval error reaches the
caller (the result is the same total value in both cases, for every choice
of section generators). -/
theorem generate_description_swallows_diff_error
    (genWhy : PyStr → List PyStr → PyStr → List PyStr → PyStr)
    (genImpact : List PyStr → List PyStr → PyStr → List PyStr → PyStr)
    (genNotes : List PyStr → PyStr → List PyStr → PyStr)
    (user_intent : PyStr) (changed_files commit_messages : List PyStr)
    (template_sections : List PyStr) (max_diff_tokens : Nat)
    (e : PyExc) (feedback_history : List PyStr) :
    resolveDiff (.error e) = [] ∧
    generate_description genWhy genImpact genNotes user_intent
        changed_files commit_messages template_sections max_diff_tokens
        (.error e) feedback_history =
      generate_description genWhy genImpact genNotes user_intent
        changed_files commit_messages template_sections max_diff_tokens
        (.ok []) feedback_history :=
  ⟨rfl, rfl⟩
